import Mathlib

/-!
Shallow embedding of the ntris gameplay core (src/board.c, src/piece.c,
src/game.c) and proofs about it.

Modelling conventions:
* C `int` values (board cells, coordinates, counters) are modelled as `ℤ`.
* The board `int cells[20][10]` is a list of 20 rows, each a list of 10 cells,
  row 0 at the top, accessed with `List.getD` (every access in the C code is
  bounds-guarded, so the defaults are never observed).
* C `double` timers are modelled as `ℚ`; the claims proved here do not depend
  on floating-point rounding.
* `rand() % PIECE_COUNT` draws are passed in explicitly as a `fresh` piece
  parameter, making every game operation a pure function.
* C loops become structural recursion over the lists they walk; the two loops
  whose C termination is not structural (`board_clear_lines`, the hard-drop
  descent) take an explicit fuel argument, and theorems show the fuel bound
  is never hit.
-/

set_option maxHeartbeats 1000000

/-- BOARD_WIDTH from board.h. -/
def BOARD_WIDTH : ℤ := 10

/-- BOARD_HEIGHT from board.h. -/
def BOARD_HEIGHT : ℤ := 20

/-- PieceType from piece.h (7 tetromino kinds, PIECE_COUNT = 7). -/
inductive PieceType where
  | PIECE_I | PIECE_O | PIECE_T | PIECE_S | PIECE_Z | PIECE_J | PIECE_L
  deriving DecidableEq, Repr

/-- RotationState from piece.h (0, 90, 180, 270 degrees). -/
inductive RotationState where
  | ROT_0 | ROT_90 | ROT_180 | ROT_270
  deriving DecidableEq, Repr

open PieceType RotationState

/-- A piece shape: the 4 (x, y) cell offsets of a PieceShape in piece.h. -/
abbrev PieceShape := List (ℤ × ℤ)

/-- I_SHAPES table from piece.c. -/
def I_SHAPES : RotationState → PieceShape
  | ROT_0 => [(0, 1), (1, 1), (2, 1), (3, 1)]
  | ROT_90 => [(2, 0), (2, 1), (2, 2), (2, 3)]
  | ROT_180 => [(0, 2), (1, 2), (2, 2), (3, 2)]
  | ROT_270 => [(1, 0), (1, 1), (1, 2), (1, 3)]

/-- O_SHAPES table from piece.c (all four rotations identical). -/
def O_SHAPES : RotationState → PieceShape
  | _ => [(1, 0), (2, 0), (1, 1), (2, 1)]

/-- T_SHAPES table from piece.c. -/
def T_SHAPES : RotationState → PieceShape
  | ROT_0 => [(1, 0), (0, 1), (1, 1), (2, 1)]
  | ROT_90 => [(1, 0), (1, 1), (2, 1), (1, 2)]
  | ROT_180 => [(0, 1), (1, 1), (2, 1), (1, 2)]
  | ROT_270 => [(1, 0), (0, 1), (1, 1), (1, 2)]

/-- S_SHAPES table from piece.c. -/
def S_SHAPES : RotationState → PieceShape
  | ROT_0 => [(1, 0), (2, 0), (0, 1), (1, 1)]
  | ROT_90 => [(1, 0), (1, 1), (2, 1), (2, 2)]
  | ROT_180 => [(1, 1), (2, 1), (0, 2), (1, 2)]
  | ROT_270 => [(0, 0), (0, 1), (1, 1), (1, 2)]

/-- Z_SHAPES table from piece.c. -/
def Z_SHAPES : RotationState → PieceShape
  | ROT_0 => [(0, 0), (1, 0), (1, 1), (2, 1)]
  | ROT_90 => [(2, 0), (1, 1), (2, 1), (1, 2)]
  | ROT_180 => [(0, 1), (1, 1), (1, 2), (2, 2)]
  | ROT_270 => [(1, 0), (0, 1), (1, 1), (0, 2)]

/-- J_SHAPES table from piece.c. -/
def J_SHAPES : RotationState → PieceShape
  | ROT_0 => [(0, 0), (0, 1), (1, 1), (2, 1)]
  | ROT_90 => [(1, 0), (2, 0), (1, 1), (1, 2)]
  | ROT_180 => [(0, 1), (1, 1), (2, 1), (2, 2)]
  | ROT_270 => [(1, 0), (1, 1), (0, 2), (1, 2)]

/-- L_SHAPES table from piece.c. -/
def L_SHAPES : RotationState → PieceShape
  | ROT_0 => [(2, 0), (0, 1), (1, 1), (2, 1)]
  | ROT_90 => [(1, 0), (1, 1), (1, 2), (2, 2)]
  | ROT_180 => [(0, 1), (1, 1), (2, 1), (0, 2)]
  | ROT_270 => [(0, 0), (1, 0), (1, 1), (1, 2)]

/-- piece_get_shape from piece.c: ROTATION_TABLES[type][rotation]. The C
bounds checks for invalid enum values are unrepresentable here because the
enums are closed. -/
def piece_get_shape (type : PieceType) (rotation : RotationState) : PieceShape :=
  match type with
  | PIECE_I => I_SHAPES rotation
  | PIECE_O => O_SHAPES rotation
  | PIECE_T => T_SHAPES rotation
  | PIECE_S => S_SHAPES rotation
  | PIECE_Z => Z_SHAPES rotation
  | PIECE_J => J_SHAPES rotation
  | PIECE_L => L_SHAPES rotation

/-- piece_get_color from piece.c: PIECE_COLORS[type]. -/
def piece_get_color : PieceType → ℤ
  | PIECE_I => 1
  | PIECE_O => 2
  | PIECE_T => 3
  | PIECE_S => 4
  | PIECE_Z => 5
  | PIECE_J => 6
  | PIECE_L => 7

/-- piece_rotate_cw from piece.c: (current + 1) % 4 on the rotation enum. -/
def piece_rotate_cw : RotationState → RotationState
  | ROT_0 => ROT_90
  | ROT_90 => ROT_180
  | ROT_180 => ROT_270
  | ROT_270 => ROT_0

/-- The board grid: 20 rows (top first) of 10 cells, 0 = empty, 1-7 = color. -/
abbrev Board := List (List ℤ)

/-- An all-empty row. -/
def emptyRow : List ℤ := List.replicate 10 0

/-- board_init from board.c: memset to zero. -/
def board_init : Board := List.replicate 20 emptyRow

/-- Raw read of cells[y][x]; only used where the C code has already checked
bounds, so the `getD` defaults are never observed. -/
def getCellRaw (board : Board) (x y : ℤ) : ℤ :=
  (board.getD y.toNat []).getD x.toNat 0

/-- Write cells[y][x] = v. -/
def setCell (board : Board) (x y v : ℤ) : Board :=
  board.set y.toNat ((board.getD y.toNat []).set x.toNat v)

/-- The per-block loop body of board_check_collision from board.c: walk the 4
blocks, returning true at the first wall, floor, or occupancy violation;
blocks above the board (block_y < 0) are skipped. -/
def collideCells (board : Board) (cells : List (ℤ × ℤ)) (x y : ℤ) : Bool :=
  match cells with
  | [] => false
  | c :: rest =>
    let block_x := x + c.1
    let block_y := y + c.2
    if block_x < 0 ∨ block_x ≥ BOARD_WIDTH then true
    else if block_y ≥ BOARD_HEIGHT then true
    else if block_y < 0 then collideCells board rest x y
    else if getCellRaw board block_x block_y ≠ 0 then true
    else collideCells board rest x y

/-- board_check_collision from board.c. -/
def board_check_collision (board : Board) (type : PieceType)
    (rotation : RotationState) (x y : ℤ) : Bool :=
  collideCells board (piece_get_shape type rotation) x y

/-- The per-block loop body of board_lock_piece from board.c: write the color
to each block that lies fully inside the visible board. -/
def lockCells (board : Board) (cells : List (ℤ × ℤ)) (color x y : ℤ) : Board :=
  match cells with
  | [] => board
  | c :: rest =>
    let block_x := x + c.1
    let block_y := y + c.2
    let board' :=
      if 0 ≤ block_x ∧ block_x < BOARD_WIDTH ∧ 0 ≤ block_y ∧ block_y < BOARD_HEIGHT
      then setCell board block_x block_y color
      else board
    lockCells board' rest color x y

/-- board_lock_piece from board.c. -/
def board_lock_piece (board : Board) (type : PieceType)
    (rotation : RotationState) (x y : ℤ) : Board :=
  lockCells board (piece_get_shape type rotation) (piece_get_color type) x y

/-- The inner row-full scan of board_clear_lines: every one of the 10 columns
is non-empty. -/
def rowFull (row : List ℤ) : Bool :=
  (List.range 10).all fun x => row.getD x 0 != 0

/-- The row shift performed by board_clear_lines when row y is full: rows 1..y
receive the row above them and row 0 becomes empty; rows below y are
untouched. -/
def shiftDown (board : Board) (y : ℕ) : Board :=
  emptyRow :: (board.take y ++ board.drop (y + 1))

/-- The scan loop of board_clear_lines from board.c: y runs from
BOARD_HEIGHT-1 down to 0; on a full row the board shifts and the same y is
re-checked (the C code's y++ before the loop's y--). The C loop needs no
fuel; here fuel is an upper bound on iterations, shown never to be reached. -/
def clearLoop (fuel : ℕ) (board : Board) (y : ℕ) (cleared : ℕ) : Board × ℕ :=
  match fuel with
  | 0 => (board, cleared)
  | fuel + 1 =>
    if rowFull (board.getD y []) then
      clearLoop fuel (shiftDown board y) y (cleared + 1)
    else if y = 0 then (board, cleared)
    else clearLoop fuel board (y - 1) cleared

/-- board_clear_lines from board.c. At most 20 shift steps and 20 downward
steps can happen, so fuel 60 is never exhausted (see clearLoop_spec). -/
def board_clear_lines (board : Board) : Board × ℕ :=
  clearLoop 60 board 19 0

/-- board_get_cell from board.c: 0 for out-of-range coordinates. -/
def board_get_cell (board : Board) (x y : ℤ) : ℤ :=
  if x < 0 ∨ x ≥ BOARD_WIDTH ∨ y < 0 ∨ y ≥ BOARD_HEIGHT then 0
  else getCellRaw board x y

/-- board_is_spawn_blocked from board.c: the 2x2 footprint at columns 4-5,
rows 0-1 (spawn_x = BOARD_WIDTH/2 - 1 = 4). -/
def board_is_spawn_blocked (board : Board) : Bool :=
  ([(4, 0), (5, 0), (4, 1), (5, 1)] : List (ℤ × ℤ)).any fun c =>
    getCellRaw board c.1 c.2 != 0

/-- Number of full rows of a row list. -/
def countFullRows (rows : Board) : ℕ := (rows.filter fun r => rowFull r).length

/-- Dimension well-formedness of a board: 20 rows of 10 cells. -/
def boardWF (b : Board) : Prop := b.length = 20 ∧ ∀ r ∈ b, r.length = 10

/-- Every stored cell value lies in the domain 0..7 (empty or a color). -/
def cellsInRange (b : Board) : Prop := ∀ r ∈ b, ∀ v ∈ r, 0 ≤ v ∧ v ≤ 7

/-- Boards producible by the board module: the cleared initial board, and
anything reachable from one by locking a piece or clearing lines. -/
inductive BoardReachable : Board → Prop where
  | init : BoardReachable board_init
  | lock (type : PieceType) (rotation : RotationState) (x y : ℤ) {b : Board} :
      BoardReachable b → BoardReachable (board_lock_piece b type rotation x y)
  | clear {b : Board} : BoardReachable b → BoardReachable (board_clear_lines b).1

/-- GameState from game.h. -/
inductive GameState where
  | GAME_STATE_START_SCREEN | GAME_STATE_PLAYING | GAME_STATE_PAUSED | GAME_STATE_GAME_OVER
  deriving DecidableEq, Repr

open GameState

/-- The Game struct from game.h. C doubles are modelled as rationals. -/
structure Game where
  board : Board
  state : GameState
  current_piece : PieceType
  current_rotation : RotationState
  piece_x : ℤ
  piece_y : ℤ
  next_piece : PieceType
  score : ℤ
  level : ℤ
  lines_cleared : ℤ
  gravity_timer : ℚ
  lock_delay_timer : ℚ
  is_on_ground : Bool
  deriving DecidableEq, Repr

/-- SPAWN_X from game.c. -/
def SPAWN_X : ℤ := 3

/-- SPAWN_Y from game.c. -/
def SPAWN_Y : ℤ := 0

/-- LOCK_DELAY from game.c (0.5 seconds). -/
def LOCK_DELAY : ℚ := 1 / 2

/-- LINES_PER_LEVEL from game.c. -/
def LINES_PER_LEVEL : ℤ := 10

/-- WALL_KICK_OFFSETS from game.c, in source order. -/
def WALL_KICK_OFFSETS : List (ℤ × ℤ) :=
  [(0, 0), (-1, 0), (1, 0), (0, -1), (-2, 0), (2, 0)]

/-- LINE_CLEAR_SCORES from game.c, indexed by lines cleared. -/
def LINE_CLEAR_SCORES : List ℤ := [0, 100, 300, 500, 800]

/-- game_spawn_piece from game.c. The rand() % PIECE_COUNT draw for the new
next piece is passed in as `fresh`. Returns the updated game and the C
function's bool result. -/
def game_spawn_piece (g : Game) (fresh : PieceType) : Game × Bool :=
  let g1 := { g with
    current_piece := g.next_piece
    current_rotation := ROT_0
    piece_x := SPAWN_X
    piece_y := SPAWN_Y
    next_piece := fresh
    is_on_ground := false
    lock_delay_timer := 0 }
  if board_check_collision g1.board g1.current_piece g1.current_rotation
      g1.piece_x g1.piece_y then
    ({ g1 with state := GAME_STATE_GAME_OVER }, false)
  else
    (g1, true)

/-- game_set_starting_level from game.c. -/
def game_set_starting_level (g : Game) (level : ℤ) : Game :=
  let lv := if level < 1 then 1 else if level > 10 then 10 else level
  let g1 := { g with level := lv, state := GAME_STATE_PLAYING }
  if board_check_collision g1.board g1.current_piece g1.current_rotation
      g1.piece_x g1.piece_y then
    { g1 with state := GAME_STATE_GAME_OVER }
  else
    g1

/-- lock_and_clear from game.c: lock the piece, clear lines, update counters
and score (at the pre-update level), recompute the level, then spawn. C's
truncating int division is Int.tdiv (equal to / on the non-negative values
that occur). -/
def lock_and_clear (g : Game) (fresh : PieceType) : Game :=
  let b1 := board_lock_piece g.board g.current_piece g.current_rotation
    g.piece_x g.piece_y
  let res := board_clear_lines b1
  let g1 := { g with board := res.1 }
  let lines : ℤ := res.2
  let g2 :=
    if lines > 0 then
      { g1 with
        lines_cleared := g1.lines_cleared + lines
        score := g1.score + LINE_CLEAR_SCORES.getD lines.toNat 0 * g1.level
        level := 1 + (g1.lines_cleared + lines).tdiv LINES_PER_LEVEL }
    else g1
  (game_spawn_piece g2 fresh).1

/-- is_grounded from game.c. -/
def is_grounded (g : Game) : Bool :=
  board_check_collision g.board g.current_piece g.current_rotation
    g.piece_x (g.piece_y + 1)

/-- game_get_gravity_speed from game.c. -/
def game_get_gravity_speed (g : Game) : ℚ :=
  let speed : ℚ := 8 / 10 - ((g.level : ℚ) - 1) * (7 / 1000)
  if speed < 5 / 100 then 5 / 100 else speed

/-- game_update from game.c: accumulate gravity, apply at most one downward
step, then handle lock delay. `fresh` is the rand() draw used only if the
lock-and-clear sequence fires. -/
def game_update (g : Game) (delta_time : ℚ) (fresh : PieceType) : Game :=
  if g.state ≠ GAME_STATE_PLAYING then g
  else
    let g1 := { g with gravity_timer := g.gravity_timer + delta_time }
    let gravity_speed := game_get_gravity_speed g1
    let g2 :=
      if g1.gravity_timer ≥ gravity_speed then
        let g1' := { g1 with gravity_timer := 0 }
        if ¬ board_check_collision g1'.board g1'.current_piece g1'.current_rotation
            g1'.piece_x (g1'.piece_y + 1) then
          { g1' with piece_y := g1'.piece_y + 1, is_on_ground := false,
                     lock_delay_timer := 0 }
        else
          { g1' with is_on_ground := true }
      else g1
    if g2.is_on_ground || is_grounded g2 then
      let g3 := { g2 with is_on_ground := true,
                          lock_delay_timer := g2.lock_delay_timer + delta_time }
      if g3.lock_delay_timer ≥ LOCK_DELAY then lock_and_clear g3 fresh else g3
    else
      { g2 with lock_delay_timer := 0 }

/-- game_move_left from game.c. -/
def game_move_left (g : Game) : Game × Bool :=
  if g.state ≠ GAME_STATE_PLAYING then (g, false)
  else
    let new_x := g.piece_x - 1
    if ¬ board_check_collision g.board g.current_piece g.current_rotation
        new_x g.piece_y then
      let g1 := { g with piece_x := new_x }
      let g2 :=
        if ¬ is_grounded g1 then
          { g1 with is_on_ground := false, lock_delay_timer := 0 }
        else g1
      (g2, true)
    else (g, false)

/-- game_move_right from game.c. -/
def game_move_right (g : Game) : Game × Bool :=
  if g.state ≠ GAME_STATE_PLAYING then (g, false)
  else
    let new_x := g.piece_x + 1
    if ¬ board_check_collision g.board g.current_piece g.current_rotation
        new_x g.piece_y then
      let g1 := { g with piece_x := new_x }
      let g2 :=
        if ¬ is_grounded g1 then
          { g1 with is_on_ground := false, lock_delay_timer := 0 }
        else g1
      (g2, true)
    else (g, false)

/-- game_move_down from game.c (soft drop, +1 point). -/
def game_move_down (g : Game) : Game × Bool :=
  if g.state ≠ GAME_STATE_PLAYING then (g, false)
  else
    let new_y := g.piece_y + 1
    if ¬ board_check_collision g.board g.current_piece g.current_rotation
        g.piece_x new_y then
      ({ g with piece_y := new_y, score := g.score + 1, is_on_ground := false,
                lock_delay_timer := 0 }, true)
    else (g, false)

/-- The wall-kick loop body of game_rotate from game.c: try each offset in
order at the new rotation; commit the first that does not collide. -/
def rotateTry (g : Game) (new_rotation : RotationState) :
    List (ℤ × ℤ) → Game × Bool
  | [] => (g, false)
  | o :: rest =>
    let test_x := g.piece_x + o.1
    let test_y := g.piece_y + o.2
    if ¬ board_check_collision g.board g.current_piece new_rotation
        test_x test_y then
      let g1 := { g with current_rotation := new_rotation, piece_x := test_x,
                         piece_y := test_y }
      let g2 :=
        if ¬ is_grounded g1 then
          { g1 with is_on_ground := false, lock_delay_timer := 0 }
        else g1
      (g2, true)
    else rotateTry g new_rotation rest

/-- game_rotate from game.c. -/
def game_rotate (g : Game) : Game × Bool :=
  if g.state ≠ GAME_STATE_PLAYING then (g, false)
  else rotateTry g (piece_rotate_cw g.current_rotation) WALL_KICK_OFFSETS

/-- The descent loop of game_hard_drop from game.c: step down while the next
row does not collide, counting the distance. The C while needs no fuel; the
fuel here is an iteration bound shown never to be reached.
Returns the final y and the distance. -/
def dropLoop (board : Board) (type : PieceType) (rotation : RotationState)
    (x : ℤ) : ℕ → ℤ → ℤ × ℕ
  | 0, y => (y, 0)
  | fuel + 1, y =>
    if ¬ board_check_collision board type rotation x (y + 1) then
      let r := dropLoop board type rotation x fuel (y + 1)
      (r.1, r.2 + 1)
    else (y, 0)

/-- Fuel sufficient for the hard-drop descent from height y: once the piece
reaches y = BOARD_HEIGHT every placement collides. -/
def dropFuel (y : ℤ) : ℕ := (BOARD_HEIGHT - y).toNat + 1

/-- game_hard_drop from game.c: descend, award 2 points per row, lock. -/
def game_hard_drop (g : Game) (fresh : PieceType) : Game :=
  if g.state ≠ GAME_STATE_PLAYING then g
  else
    let r := dropLoop g.board g.current_piece g.current_rotation g.piece_x
      (dropFuel g.piece_y) g.piece_y
    let g1 := { g with piece_y := r.1, score := g.score + (r.2 : ℤ) * 2 }
    lock_and_clear g1 fresh

/-- game_toggle_pause from game.c. -/
def game_toggle_pause (g : Game) : Game :=
  if g.state = GAME_STATE_PLAYING then { g with state := GAME_STATE_PAUSED }
  else if g.state = GAME_STATE_PAUSED then { g with state := GAME_STATE_PLAYING }
  else g

/-- The closed set of in-game operations handle_input and the main loop can
invoke after the game has started (each with the rand() draw it may consume). -/
inductive GameAction where
  | moveLeft | moveRight | moveDown | rotate
  | hardDrop (fresh : PieceType)
  | togglePause
  | update (delta_time : ℚ) (fresh : PieceType)

/-- Dispatch one action, as handle_input / the main loop in main.c do. -/
def game_step (g : Game) : GameAction → Game
  | GameAction.moveLeft => (game_move_left g).1
  | GameAction.moveRight => (game_move_right g).1
  | GameAction.moveDown => (game_move_down g).1
  | GameAction.rotate => (game_rotate g).1
  | GameAction.hardDrop fresh => game_hard_drop g fresh
  | GameAction.togglePause => game_toggle_pause g
  | GameAction.update delta_time fresh => game_update g delta_time fresh

/-- The level bookkeeping that actually holds during play when the game was
started at level 1: the level always equals the recomputation formula
1 + floor(total_lines / 10) and the line counter is non-negative. -/
def LevelInv (g : Game) : Prop :=
  0 ≤ g.lines_cleared ∧ g.level = 1 + g.lines_cleared / 10

/-- The weaker level bookkeeping that holds for every starting level: the
line counter is non-negative and the level is at least 1. -/
def LevelLB (g : Game) : Prop :=
  0 ≤ g.lines_cleared ∧ 1 ≤ g.level

/-- Concrete board for the line-clear example: rows 5 and 10 completely full,
rows 3 and 4 marked so the shift is observable, all other rows not full. -/
def clearTestBoard : Board :=
  (List.range 20).map fun y =>
    if y = 5 ∨ y = 10 then List.replicate 10 1
    else if y = 3 then 2 :: List.replicate 9 0
    else if y = 4 then 3 :: List.replicate 9 0
    else emptyRow

/-- A game as game_init leaves it when both random draws are O pieces. -/
def c4_g0 : Game where
  board := board_init
  state := GAME_STATE_START_SCREEN
  current_piece := PIECE_O
  current_rotation := ROT_0
  piece_x := SPAWN_X
  piece_y := SPAWN_Y
  next_piece := PIECE_O
  score := 0
  level := 1
  lines_cleared := 0
  gravity_timer := 0
  lock_delay_timer := 0
  is_on_ground := false

/-- The same game after choosing starting level 2. -/
def c4_g1 : Game := game_set_starting_level c4_g0 2

/-- Five O pieces dropped side by side; the last drop fills rows 18 and 19. -/
def c4_actions : List GameAction :=
  [GameAction.moveLeft, GameAction.moveLeft, GameAction.moveLeft,
   GameAction.moveLeft, GameAction.hardDrop PIECE_O,
   GameAction.moveLeft, GameAction.moveLeft, GameAction.hardDrop PIECE_O,
   GameAction.hardDrop PIECE_O,
   GameAction.moveRight, GameAction.moveRight, GameAction.hardDrop PIECE_O,
   GameAction.moveRight, GameAction.moveRight, GameAction.moveRight,
   GameAction.moveRight, GameAction.hardDrop PIECE_O]

/-- The game after the five drops: two lines were cleared at once. -/
def c4_final : Game := List.foldl game_step c4_g1 c4_actions

/-- A playing game whose bottom row lacks exactly the two columns the O piece
at (3, 18) will fill: locking it clears one line. -/
def c3_game : Game where
  board := List.replicate 19 emptyRow ++ [[1, 1, 1, 1, 0, 0, 1, 1, 1, 1]]
  state := GAME_STATE_PLAYING
  current_piece := PIECE_O
  current_rotation := ROT_0
  piece_x := 3
  piece_y := 18
  next_piece := PIECE_I
  score := 7
  level := 3
  lines_cleared := 4
  gravity_timer := 0
  lock_delay_timer := 0
  is_on_ground := true

/-- A playing game on an empty board (rotation succeeds with no kick). -/
def c5_game : Game where
  board := board_init
  state := GAME_STATE_PLAYING
  current_piece := PIECE_T
  current_rotation := ROT_0
  piece_x := 3
  piece_y := 5
  next_piece := PIECE_I
  score := 0
  level := 1
  lines_cleared := 0
  gravity_timer := 0
  lock_delay_timer := 0
  is_on_ground := false

/-- A game whose 2x2 spawn footprint (columns 4-5, rows 0-1) is occupied. -/
def c6_game : Game where
  board :=
    [[0, 0, 0, 0, 1, 1, 0, 0, 0, 0], [0, 0, 0, 0, 1, 1, 0, 0, 0, 0]]
      ++ List.replicate 18 emptyRow
  state := GAME_STATE_PLAYING
  current_piece := PIECE_T
  current_rotation := ROT_0
  piece_x := 3
  piece_y := 0
  next_piece := PIECE_J
  score := 0
  level := 1
  lines_cleared := 0
  gravity_timer := 0
  lock_delay_timer := 0
  is_on_ground := false

/-- A paused game with nonzero timers. -/
def c8_game : Game where
  board := board_init
  state := GAME_STATE_PAUSED
  current_piece := PIECE_S
  current_rotation := ROT_90
  piece_x := 4
  piece_y := 7
  next_piece := PIECE_Z
  score := 1234
  level := 4
  lines_cleared := 31
  gravity_timer := 3 / 10
  lock_delay_timer := 1 / 5
  is_on_ground := true

/-- A single block of a piece placement violates the collision rules: off the
board horizontally, at or below the floor, or on an occupied visible cell. -/
def blockViolates (board : Board) (x y : ℤ) (c : ℤ × ℤ) : Prop :=
  x + c.1 < 0 ∨ x + c.1 ≥ BOARD_WIDTH ∨ y + c.2 ≥ BOARD_HEIGHT ∨
    (0 ≤ y + c.2 ∧ y + c.2 < BOARD_HEIGHT ∧ getCellRaw board (x + c.1) (y + c.2) ≠ 0)

instance (board : Board) (x y : ℤ) (c : ℤ × ℤ) : Decidable (blockViolates board x y c) := by
  unfold blockViolates; infer_instance

lemma collideCells_iff (board : Board) (x y : ℤ) (cells : List (ℤ × ℤ)) :
    collideCells board cells x y = true ↔ ∃ c ∈ cells, blockViolates board x y c := by
  induction cells with
  | nil => simp [collideCells]
  | cons c rest ih =>
    simp only [collideCells]
    constructor
    · intro h
      split_ifs at h with h1 h2 h3 h4
      · exact ⟨c, List.mem_cons_self c rest, Or.imp id Or.inl h1⟩
      · exact ⟨c, List.mem_cons_self c rest, Or.inr (Or.inr (Or.inl h2))⟩
      · obtain ⟨d, hd, hv⟩ := ih.mp h
        exact ⟨d, List.mem_cons_of_mem c hd, hv⟩
      · exact ⟨c, List.mem_cons_self c rest,
          Or.inr (Or.inr (Or.inr ⟨not_lt.mp h3, not_le.mp h2, h4⟩))⟩
      · obtain ⟨d, hd, hv⟩ := ih.mp h
        exact ⟨d, List.mem_cons_of_mem c hd, hv⟩
    · rintro ⟨d, hd, hv⟩
      rcases List.mem_cons.mp hd with rfl | hd
      · split_ifs with h1 h2 h3 h4
        any_goals rfl
        all_goals exfalso
        all_goals rcases hv with hv | hv | hv | ⟨hv1, hv2, hv3⟩
        all_goals first
          | exact h1 (Or.inl hv)
          | exact h1 (Or.inr hv)
          | exact h2 hv
          | omega
      · split_ifs with h1 h2 h3 h4
        any_goals rfl
        all_goals exact ih.mpr ⟨d, hd, hv⟩

lemma board_check_collision_iff_violates (board : Board) (type : PieceType)
    (rotation : RotationState) (x y : ℤ) :
    board_check_collision board type rotation x y = true ↔
      ∃ c ∈ piece_get_shape type rotation, blockViolates board x y c :=
  collideCells_iff board x y (piece_get_shape type rotation)

/-- C1: board_check_collision(board, type, rotation, x, y) is true iff at
least one of the piece's 4 absolute cells (x+dx, y+dy) falls outside
[0, BOARD_WIDTH) horizontally, or has y+dy ≥ BOARD_HEIGHT, or lies on a row
within [0, BOARD_HEIGHT) at a cell that is already non-empty; cells with
y+dy < 0 are exempt from the floor/occupancy checks (only the horizontal
bound applies to them), so a piece whose 4 cells are all in-range and on
empty cells never collides. -/
theorem board_check_collision_correct (board : Board) (type : PieceType)
    (rotation : RotationState) (x y : ℤ) :
    board_check_collision board type rotation x y = true ↔
      ∃ c ∈ piece_get_shape type rotation,
        x + c.1 < 0 ∨ x + c.1 ≥ BOARD_WIDTH ∨ y + c.2 ≥ BOARD_HEIGHT ∨
          (0 ≤ y + c.2 ∧ y + c.2 < BOARD_HEIGHT ∧
            getCellRaw board (x + c.1) (y + c.2) ≠ 0) := by
  rw [board_check_collision_iff_violates]
  unfold blockViolates
  rfl

lemma rowFull_emptyRow : rowFull emptyRow = false := by decide

lemma countFullRows_concat_full (dl : Board) (t : List ℤ) (ht : rowFull t = true) :
    countFullRows (dl ++ [t]) = countFullRows dl + 1 := by
  simp [countFullRows, List.filter_append, ht]

lemma countFullRows_concat_notfull (dl : Board) (t : List ℤ) (ht : rowFull t = false) :
    countFullRows (dl ++ [t]) = countFullRows dl := by
  simp [countFullRows, List.filter_append, ht]

lemma countFullRows_cons_empty (dl : Board) :
    countFullRows (emptyRow :: dl) = countFullRows dl := by
  simp [countFullRows, List.filter_cons, rowFull_emptyRow]

/-- The clear-lines scan, started at the bottom row of `top` with everything
in `bot` already known non-full, removes exactly the full rows of `top`,
keeps the others in order above `bot`, pads the top with empty rows, and adds
the number of full rows to the running count. -/
lemma clearLoop_spec : ∀ (fuel : ℕ) (top bot : Board) (c : ℕ),
    top ≠ [] → (∀ r ∈ bot, rowFull r = false) →
    top.length + countFullRows top ≤ fuel →
    clearLoop fuel (top ++ bot) (top.length - 1) c =
      (List.replicate (countFullRows top) emptyRow
         ++ top.filter (fun r => !rowFull r) ++ bot,
       c + countFullRows top) := by
  intro fuel
  induction fuel with
  | zero =>
    intro top bot c htop _ hfuel
    exfalso
    have := List.length_pos.mpr htop
    omega
  | succ n ih =>
    intro top bot c htop hbot hfuel
    rcases List.eq_nil_or_concat' top with rfl | ⟨dl, t, rfl⟩
    · exact absurd rfl htop
    have hy : (dl ++ [t]).length - 1 = dl.length := by simp
    have hrows : (dl ++ [t]) ++ bot = dl ++ (t :: bot) := by simp
    have hget : (dl ++ (t :: bot)).getD dl.length [] = t := by
      rw [List.getD_append_right _ _ _ _ (le_refl _)]
      simp
    rw [hy, hrows, clearLoop, hget]
    cases ht : rowFull t with
    | true =>
      simp only [if_true]
      have htake : (dl ++ (t :: bot)).take dl.length = dl := List.take_left dl (t :: bot)
      have hdrop : (dl ++ (t :: bot)).drop (dl.length + 1) = bot := by
        have : dl.length + 1 = dl.length + 1 := rfl
        rw [show (dl ++ (t :: bot)) = (dl ++ [t]) ++ bot by simp,
            show dl.length + 1 = (dl ++ [t]).length by simp,
            List.drop_left]
      have hkey := ih (emptyRow :: dl) bot (c + 1) (by simp)
        hbot
        (by
          have h1 := countFullRows_concat_full dl t ht
          have h2 := countFullRows_cons_empty dl
          simp only [List.length_append, List.length_cons, List.length_singleton] at hfuel ⊢
          omega)
      simp only [List.cons_append, List.length_cons, Nat.add_sub_cancel] at hkey
      simp only [shiftDown, htake, hdrop]
      rw [hkey]
      have h1 := countFullRows_concat_full dl t ht
      simp only [Prod.mk.injEq]
      constructor
      · rw [h1, countFullRows_cons_empty, List.filter_cons,
          List.filter_append, List.replicate_succ']
        simp [rowFull_emptyRow, ht, List.append_assoc]
      · rw [h1, countFullRows_cons_empty]
        omega
    | false =>
      simp only [ht, Bool.false_eq_true, if_false]
      rcases List.eq_nil_or_concat' dl with rfl | ⟨dl', t', rfl⟩
      · -- top = [t], y = 0: the loop returns immediately
        simp [countFullRows, List.filter_cons, ht]
      · have hne : ((dl' ++ [t']).length = 0) = False := by simp
        have hlen0 : ¬ (dl' ++ [t']).length = 0 := by simp
        rw [if_neg hlen0]
        have hkey := ih (dl' ++ [t']) (t :: bot) c (by simp)
          (by
            intro r hr
            rcases List.mem_cons.mp hr with rfl | hr
            · exact ht
            · exact hbot r hr)
          (by
            have h2 := countFullRows_concat_notfull (dl' ++ [t']) t ht
            simp only [List.length_append, List.length_cons, List.length_singleton] at hfuel ⊢
            omega)
        rw [hkey]
        have h2 := countFullRows_concat_notfull (dl' ++ [t']) t ht
        simp only [Prod.mk.injEq]
        constructor
        · rw [h2, List.filter_append _ [t]]
          simp [ht, List.append_assoc]
        · rw [h2]

lemma board_clear_lines_eq (board : Board) (h : board.length = 20) :
    board_clear_lines board =
      (List.replicate (countFullRows board) emptyRow
         ++ board.filter (fun r => !rowFull r),
       countFullRows board) := by
  have hne : board ≠ [] := by
    intro hnil
    rw [hnil] at h
    simp at h
  have hcount : countFullRows board ≤ board.length :=
    List.length_filter_le _ _
  have hspec := clearLoop_spec 60 board [] 0 hne (by intro r hr; simp at hr)
    (by omega)
  rw [List.append_nil] at hspec
  rw [board_clear_lines, show (19 : ℕ) = board.length - 1 by omega, hspec]
  simp

/-- C2: board_clear_lines removes exactly the rows that are full in the
pre-state (a row is full iff every one of its 10 columns is non-empty),
keeps every other row in order — so each row above a removed row shifts down
one per removed row below it — fills the vacated top rows with empty cells,
and returns the total number of full rows removed, handling multiple
simultaneous full rows. -/
theorem board_clear_lines_correct (board : Board) (h : board.length = 20) :
    board_clear_lines board =
      (List.replicate (countFullRows board) emptyRow
         ++ board.filter (fun r => !rowFull r),
       countFullRows board) :=
  board_clear_lines_eq board h

/-- Witness for board_clear_lines_correct: the spec's own example board, with
exactly rows 5 and 10 full; the theorem instance evaluates to two rows
cleared and the marked rows 3 and 4 shifted down by two. -/
theorem board_clear_lines_correct_witness :
    clearTestBoard.length = 20 ∧
    board_clear_lines clearTestBoard =
      (List.replicate (countFullRows clearTestBoard) emptyRow
         ++ clearTestBoard.filter (fun r => !rowFull r),
       countFullRows clearTestBoard) :=
  ⟨by decide, board_clear_lines_correct clearTestBoard (by decide)⟩

lemma boardWF_setCell (b : Board) (x y v : ℤ) (hy : 0 ≤ y) (hy2 : y < 20)
    (hb : boardWF b) : boardWF (setCell b x y v) := by
  obtain ⟨hlen, hrows⟩ := hb
  constructor
  · rw [setCell, List.length_set]
    exact hlen
  · intro r hr
    rcases List.mem_or_eq_of_mem_set hr with hr | rfl
    · exact hrows r hr
    · rw [List.length_set]
      have hyn : y.toNat < b.length := by omega
      rw [List.getD_eq_getElem _ _ hyn]
      exact hrows _ (List.getElem_mem hyn)

lemma getD_set_self {α : Type} (l : List α) (i : ℕ) (a d : α) (hi : i < l.length) :
    (l.set i a).getD i d = a := by
  rw [List.getD_eq_getElem _ _ (by simpa using hi), List.getElem_set, if_pos rfl]

lemma getD_set_of_ne {α : Type} (l : List α) {i j : ℕ} (a d : α) (hij : i ≠ j) :
    (l.set i a).getD j d = l.getD j d := by
  by_cases hj : j < l.length
  · rw [List.getD_eq_getElem _ _ (by simpa using hj), List.getElem_set, if_neg hij,
      List.getD_eq_getElem _ _ hj]
  · rw [List.getD_eq_default _ _ (by simpa using hj), List.getD_eq_default _ _ (by omega)]

lemma getCellRaw_setCell (b : Board) (x y v cx cy : ℤ) (hb : boardWF b)
    (hx : 0 ≤ x) (hx2 : x < 10) (hy : 0 ≤ y) (hy2 : y < 20)
    (hcx : 0 ≤ cx) (hcx2 : cx < 10) (hcy : 0 ≤ cy) (hcy2 : cy < 20) :
    getCellRaw (setCell b x y v) cx cy =
      if cx = x ∧ cy = y then v else getCellRaw b cx cy := by
  obtain ⟨hlen, hrows⟩ := hb
  by_cases hcyy : cy = y
  · subst hcyy
    unfold getCellRaw setCell
    rw [getD_set_self _ _ _ _ (by omega)]
    by_cases hcxx : cx = x
    · subst hcxx
      rw [getD_set_self _ _ _ _ (by
          have : (b.getD cy.toNat []).length = 10 := by
            rw [List.getD_eq_getElem _ _ (by omega)]
            exact hrows _ (List.getElem_mem (by omega))
          omega),
        if_pos ⟨rfl, rfl⟩]
    · rw [getD_set_of_ne _ _ _ (by omega), if_neg (by intro hc; exact hcxx hc.1)]
  · unfold getCellRaw setCell
    rw [getD_set_of_ne _ _ _ (by omega), if_neg (by intro hc; exact hcyy hc.2)]

lemma boardWF_lockCells (cells : List (ℤ × ℤ)) (b : Board) (color x y : ℤ)
    (hb : boardWF b) : boardWF (lockCells b cells color x y) := by
  induction cells generalizing b with
  | nil => simpa [lockCells]
  | cons c rest ih =>
    simp only [lockCells]
    apply ih
    split_ifs with hg
    · exact boardWF_setCell b _ _ _ hg.2.2.1
        (by simpa [BOARD_HEIGHT] using hg.2.2.2) hb
    · exact hb

lemma getCellRaw_lockCells (cells : List (ℤ × ℤ)) (b : Board) (color x y cx cy : ℤ)
    (hb : boardWF b) (hcx : 0 ≤ cx) (hcx2 : cx < 10) (hcy : 0 ≤ cy) (hcy2 : cy < 20) :
    getCellRaw (lockCells b cells color x y) cx cy =
      if (cx - x, cy - y) ∈ cells then color else getCellRaw b cx cy := by
  induction cells generalizing b with
  | nil => simp [lockCells]
  | cons c rest ih =>
    obtain ⟨c1, c2⟩ := c
    simp only [lockCells]
    by_cases hg : 0 ≤ x + c1 ∧ x + c1 < BOARD_WIDTH ∧ 0 ≤ y + c2 ∧ y + c2 < BOARD_HEIGHT
    · rw [if_pos hg]
      rw [ih _ (boardWF_setCell b _ _ _ hg.2.2.1
        (by simpa [BOARD_HEIGHT] using hg.2.2.2) hb)]
      by_cases hmem : (cx - x, cy - y) ∈ rest
      · rw [if_pos hmem, if_pos (List.mem_cons_of_mem _ hmem)]
      · rw [if_neg hmem]
        rw [getCellRaw_setCell b _ _ _ _ _ hb hg.1
          (by simpa [BOARD_WIDTH] using hg.2.1) hg.2.2.1
          (by simpa [BOARD_HEIGHT] using hg.2.2.2) hcx hcx2 hcy hcy2]
        by_cases hc : cx = x + c1 ∧ cy = y + c2
        · obtain ⟨h1, h2⟩ := hc
          have he : ((cx - x : ℤ), (cy - y : ℤ)) = ((c1 : ℤ), (c2 : ℤ)) := by
            rw [Prod.mk.injEq]
            constructor <;> omega
          rw [if_pos ⟨h1, h2⟩, if_pos (List.mem_cons.mpr (Or.inl he))]
        · rw [if_neg hc, if_neg (by
            intro hm
            rcases List.mem_cons.mp hm with he | hm
            · apply hc
              have h1 : cx - x = c1 := congrArg Prod.fst he
              have h2 : cy - y = c2 := congrArg Prod.snd he
              omega
            · exact hmem hm)]
    · rw [if_neg hg, ih _ hb]
      by_cases hmem : (cx - x, cy - y) ∈ rest
      · rw [if_pos hmem, if_pos (List.mem_cons_of_mem _ hmem)]
      · rw [if_neg hmem, if_neg (by
          intro hm
          rcases List.mem_cons.mp hm with he | hm
          · apply hg
            have h1 : cx - x = c1 := congrArg Prod.fst he
            have h2 : cy - y = c2 := congrArg Prod.snd he
            simp only [BOARD_WIDTH, BOARD_HEIGHT]
            omega
          · exact hmem hm)]

/-- C7: after board_lock_piece, every visible board cell that is one of the
piece's 4 absolute cells holds the piece's color (so board_get_cell
immediately returns that color there), every other visible cell is unchanged,
and nothing is retrievable outside the visible board (blocks with a negative
row are silently skipped). -/
theorem board_lock_piece_correct (b : Board) (hb : boardWF b)
    (type : PieceType) (rotation : RotationState) (x y cx cy : ℤ)
    (hcx : 0 ≤ cx) (hcx2 : cx < BOARD_WIDTH) (hcy : 0 ≤ cy) (hcy2 : cy < BOARD_HEIGHT) :
    (board_get_cell (board_lock_piece b type rotation x y) cx cy =
      if (cx - x, cy - y) ∈ piece_get_shape type rotation
      then piece_get_color type else board_get_cell b cx cy)
    ∧ ∀ qx qy : ℤ, (qx < 0 ∨ qx ≥ BOARD_WIDTH ∨ qy < 0 ∨ qy ≥ BOARD_HEIGHT) →
        board_get_cell (board_lock_piece b type rotation x y) qx qy = 0 := by
  simp only [BOARD_WIDTH, BOARD_HEIGHT] at hcx2 hcy2
  have hnot : ¬(cx < 0 ∨ cx ≥ BOARD_WIDTH ∨ cy < 0 ∨ cy ≥ BOARD_HEIGHT) := by
    simp only [BOARD_WIDTH, BOARD_HEIGHT]
    omega
  constructor
  · rw [board_get_cell, if_neg hnot, board_get_cell, if_neg hnot, board_lock_piece,
      getCellRaw_lockCells _ _ _ _ _ _ _ hb hcx hcx2 hcy hcy2]
  · intro qx qy hq
    rw [board_get_cell, if_pos hq]

/-- Witness for board_lock_piece_correct: lock an O piece at (3, -1) on the
empty board; its two blocks with negative rows are skipped, and the queried
cell (4, 0) — the piece's block (1, 1) — reads back the O color. -/
theorem board_lock_piece_correct_witness :
    (board_get_cell (board_lock_piece board_init PIECE_O ROT_0 3 (-1)) 4 0 =
      if ((4 : ℤ) - 3, (0 : ℤ) - (-1)) ∈ piece_get_shape PIECE_O ROT_0
      then piece_get_color PIECE_O else board_get_cell board_init 4 0)
    ∧ ∀ qx qy : ℤ, (qx < 0 ∨ qx ≥ BOARD_WIDTH ∨ qy < 0 ∨ qy ≥ BOARD_HEIGHT) →
        board_get_cell (board_lock_piece board_init PIECE_O ROT_0 3 (-1)) qx qy = 0 :=
  board_lock_piece_correct board_init ⟨by decide, by decide⟩ PIECE_O ROT_0
    3 (-1) 4 0 (by decide) (by decide) (by decide) (by decide)

lemma piece_get_color_range (type : PieceType) :
    1 ≤ piece_get_color type ∧ piece_get_color type ≤ 7 := by
  cases type <;> simp [piece_get_color]

lemma cellsInRange_setCell (b : Board) (x y v : ℤ) (hb : boardWF b)
    (hy : 0 ≤ y) (hy2 : y < 20) (hv : 0 ≤ v) (hv2 : v ≤ 7)
    (hc : cellsInRange b) : cellsInRange (setCell b x y v) := by
  intro r hr
  rcases List.mem_or_eq_of_mem_set hr with hr | rfl
  · exact hc r hr
  · intro w hw
    rcases List.mem_or_eq_of_mem_set hw with hw | rfl
    · have hyn : y.toNat < b.length := by
        have := hb.1
        omega
      have hrow : b.getD y.toNat [] ∈ b := by
        rw [List.getD_eq_getElem _ _ hyn]
        exact List.getElem_mem hyn
      exact hc _ hrow w hw
    · exact ⟨hv, hv2⟩

lemma cellsInRange_lockCells (cells : List (ℤ × ℤ)) (b : Board) (color x y : ℤ)
    (hcol : 0 ≤ color ∧ color ≤ 7) (hb : boardWF b) (hc : cellsInRange b) :
    cellsInRange (lockCells b cells color x y) := by
  induction cells generalizing b with
  | nil => simpa [lockCells]
  | cons c rest ih =>
    simp only [lockCells]
    split_ifs with hg
    · exact ih _ (boardWF_setCell b _ _ _ hg.2.2.1
        (by simpa [BOARD_HEIGHT] using hg.2.2.2) hb)
        (cellsInRange_setCell b _ _ _ hb hg.2.2.1
          (by simpa [BOARD_HEIGHT] using hg.2.2.2) hcol.1 hcol.2 hc)
    · exact ih _ hb hc

lemma cellsInRange_emptyRow (v : ℤ) (hv : v ∈ emptyRow) : 0 ≤ v ∧ v ≤ 7 := by
  rw [emptyRow] at hv
  rw [List.eq_of_mem_replicate hv]
  omega

lemma clear_preserves_WF_inRange (b : Board) (hb : boardWF b) (hc : cellsInRange b) :
    boardWF (board_clear_lines b).1 ∧ cellsInRange (board_clear_lines b).1 := by
  have heq := board_clear_lines_eq b hb.1
  have hpart : b.length =
      (b.filter (fun r => rowFull r)).length + (b.filter (fun r => !rowFull r)).length :=
    List.length_eq_length_filter_add _
  rw [heq]
  refine ⟨⟨?_, ?_⟩, ?_⟩
  · have hl := hb.1
    simp only [List.length_append, List.length_replicate, countFullRows]
    omega
  · intro r hr
    rcases List.mem_append.mp hr with hr | hr
    · rw [List.eq_of_mem_replicate hr]
      decide
    · exact hb.2 r (List.mem_of_mem_filter hr)
  · intro r hr
    rcases List.mem_append.mp hr with hr | hr
    · rw [List.eq_of_mem_replicate hr]
      exact cellsInRange_emptyRow
    · exact hc r (List.mem_of_mem_filter hr)

lemma reachable_WF_inRange {b : Board} (hr : BoardReachable b) :
    boardWF b ∧ cellsInRange b := by
  induction hr with
  | init =>
    refine ⟨⟨by decide, by decide⟩, fun r hr w hw => ?_⟩
    rw [board_init] at hr
    rw [List.eq_of_mem_replicate hr] at hw
    exact cellsInRange_emptyRow w hw
  | lock type rotation x y _ ih =>
    exact ⟨boardWF_lockCells _ _ _ _ _ ih.1,
      cellsInRange_lockCells _ _ _ _ _ (by
        have := piece_get_color_range type
        omega) ih.1 ih.2⟩
  | clear _ ih => exact clear_preserves_WF_inRange _ ih.1 ih.2

/-- C9: board_get_cell is total: it returns 0 (empty) whenever (x, y) is
outside the board rather than erroring, returns the stored cell for in-range
coordinates, and on every board producible by the board module the returned
value lies in the domain empty, 1..7. -/
theorem board_get_cell_correct (b : Board) (hr : BoardReachable b) (x y : ℤ) :
    ((x < 0 ∨ x ≥ BOARD_WIDTH ∨ y < 0 ∨ y ≥ BOARD_HEIGHT) → board_get_cell b x y = 0)
    ∧ (¬(x < 0 ∨ x ≥ BOARD_WIDTH ∨ y < 0 ∨ y ≥ BOARD_HEIGHT) →
        board_get_cell b x y = getCellRaw b x y)
    ∧ (board_get_cell b x y = 0 ∨
        (1 ≤ board_get_cell b x y ∧ board_get_cell b x y ≤ 7)) := by
  obtain ⟨⟨hlen, hrows⟩, hc⟩ := reachable_WF_inRange hr
  refine ⟨?_, ?_, ?_⟩
  · intro h
    rw [board_get_cell, if_pos h]
  · intro h
    rw [board_get_cell, if_neg h]
  · by_cases h : x < 0 ∨ x ≥ BOARD_WIDTH ∨ y < 0 ∨ y ≥ BOARD_HEIGHT
    · left
      rw [board_get_cell, if_pos h]
    · simp only [BOARD_WIDTH, BOARD_HEIGHT, not_or, not_lt, not_le] at h
      obtain ⟨hx0, hx1, hy0, hy1⟩ := h
      rw [board_get_cell, if_neg (by simp only [BOARD_WIDTH, BOARD_HEIGHT]; omega)]
      have hyn : y.toNat < b.length := by omega
      have hrowmem : b.getD y.toNat [] ∈ b := by
        rw [List.getD_eq_getElem _ _ hyn]
        exact List.getElem_mem hyn
      have hrlen : (b.getD y.toNat []).length = 10 := hrows _ hrowmem
      have hxn : x.toNat < (b.getD y.toNat []).length := by omega
      have hvmem : (b.getD y.toNat []).getD x.toNat 0 ∈ b.getD y.toNat [] := by
        rw [List.getD_eq_getElem _ _ hxn]
        exact List.getElem_mem hxn
      have := hc _ hrowmem _ hvmem
      rw [getCellRaw]
      omega

/-- Witness for board_get_cell_correct: the initial board is reachable and
its cell (3, 7) is in the allowed domain. -/
theorem board_get_cell_correct_witness :
    board_get_cell board_init 3 7 = 0 ∨
      (1 ≤ board_get_cell board_init 3 7 ∧ board_get_cell board_init 3 7 ≤ 7) :=
  (board_get_cell_correct board_init BoardReachable.init 3 7).2.2

lemma spawn_footprint_collides (b : Board) (type : PieceType)
    (h40 : getCellRaw b 4 0 ≠ 0) (h50 : getCellRaw b 5 0 ≠ 0)
    (h41 : getCellRaw b 4 1 ≠ 0) (h51 : getCellRaw b 5 1 ≠ 0) :
    board_check_collision b type ROT_0 SPAWN_X SPAWN_Y = true := by
  rw [board_check_collision_iff_violates]
  cases type
  case PIECE_I =>
    exact ⟨(1, 1), by decide,
      Or.inr (Or.inr (Or.inr ⟨by decide, by decide, by simpa [SPAWN_X, SPAWN_Y] using h41⟩))⟩
  case PIECE_O =>
    exact ⟨(1, 0), by decide,
      Or.inr (Or.inr (Or.inr ⟨by decide, by decide, by simpa [SPAWN_X, SPAWN_Y] using h40⟩))⟩
  case PIECE_T =>
    exact ⟨(1, 0), by decide,
      Or.inr (Or.inr (Or.inr ⟨by decide, by decide, by simpa [SPAWN_X, SPAWN_Y] using h40⟩))⟩
  case PIECE_S =>
    exact ⟨(1, 0), by decide,
      Or.inr (Or.inr (Or.inr ⟨by decide, by decide, by simpa [SPAWN_X, SPAWN_Y] using h40⟩))⟩
  case PIECE_Z =>
    exact ⟨(1, 0), by decide,
      Or.inr (Or.inr (Or.inr ⟨by decide, by decide, by simpa [SPAWN_X, SPAWN_Y] using h40⟩))⟩
  case PIECE_J =>
    exact ⟨(1, 1), by decide,
      Or.inr (Or.inr (Or.inr ⟨by decide, by decide, by simpa [SPAWN_X, SPAWN_Y] using h41⟩))⟩
  case PIECE_L =>
    exact ⟨(1, 1), by decide,
      Or.inr (Or.inr (Or.inr ⟨by decide, by decide, by simpa [SPAWN_X, SPAWN_Y] using h41⟩))⟩

/-- C6: whenever the top-center 2x2 spawn footprint (columns 4-5, rows 0-1)
is entirely occupied, game_spawn_piece fails (returns false) and moves the
game to GameOver, for every next-piece type; and when the spawn position is
not blocked for the next piece, it succeeds and leaves the state alone. -/
theorem game_spawn_piece_correct (g : Game) (fresh : PieceType) :
    ((board_get_cell g.board 4 0 ≠ 0 ∧ board_get_cell g.board 5 0 ≠ 0 ∧
      board_get_cell g.board 4 1 ≠ 0 ∧ board_get_cell g.board 5 1 ≠ 0) →
      (game_spawn_piece g fresh).2 = false ∧
      (game_spawn_piece g fresh).1.state = GAME_STATE_GAME_OVER)
    ∧ (board_check_collision g.board g.next_piece ROT_0 SPAWN_X SPAWN_Y = false →
        (game_spawn_piece g fresh).2 = true ∧
        (game_spawn_piece g fresh).1.state = g.state) := by
  constructor
  · intro hocc
    obtain ⟨h40, h50, h41, h51⟩ := hocc
    rw [board_get_cell, if_neg (by decide)] at h40 h50 h41 h51
    have hcol := spawn_footprint_collides g.board g.next_piece h40 h50 h41 h51
    simp [game_spawn_piece, hcol]
  · intro hfree
    simp [game_spawn_piece, hfree]

/-- Witness for game_spawn_piece_correct: a game with an occupied footprint
fails and game-overs; a game on the empty board spawns successfully. -/
theorem game_spawn_piece_correct_witness :
    ((game_spawn_piece c6_game PIECE_I).2 = false ∧
     (game_spawn_piece c6_game PIECE_I).1.state = GAME_STATE_GAME_OVER)
    ∧ (game_spawn_piece c5_game PIECE_O).2 = true :=
  ⟨(game_spawn_piece_correct c6_game PIECE_I).1
     ⟨by decide, by decide, by decide, by decide⟩,
   ((game_spawn_piece_correct c5_game PIECE_O).2 (by decide)).1⟩

lemma spawn_preserves_counters (g : Game) (fresh : PieceType) :
    (game_spawn_piece g fresh).1.score = g.score ∧
    (game_spawn_piece g fresh).1.level = g.level ∧
    (game_spawn_piece g fresh).1.lines_cleared = g.lines_cleared := by
  rw [game_spawn_piece]
  split_ifs <;> exact ⟨rfl, rfl, rfl⟩

/-- C3: in the lock-and-clear sequence, clearing count rows with
1 ≤ count ≤ 4 adds count to lines_cleared, adds base_score[count] × level to
the score using the pre-update level (base_score = 100/300/500/800), and then
recomputes the level as 1 + floor(total_lines_cleared / 10). -/
theorem lock_and_clear_correct (g : Game) (fresh : PieceType) (count : ℤ)
    (hc : count = ((board_clear_lines (board_lock_piece g.board g.current_piece
        g.current_rotation g.piece_x g.piece_y)).2 : ℤ))
    (h1 : 1 ≤ count) (h4 : count ≤ 4) (hlines : 0 ≤ g.lines_cleared) :
    (lock_and_clear g fresh).lines_cleared = g.lines_cleared + count ∧
    (lock_and_clear g fresh).score = g.score +
      (if count = 1 then 100 else if count = 2 then 300
       else if count = 3 then 500 else 800) * g.level ∧
    (lock_and_clear g fresh).level = 1 + (g.lines_cleared + count) / 10 := by
  have hscores : LINE_CLEAR_SCORES.getD count.toNat 0 =
      (if count = 1 then (100 : ℤ) else if count = 2 then 300
       else if count = 3 then 500 else 800) := by
    interval_cases count <;> decide
  have hdiv : (g.lines_cleared + count).tdiv LINES_PER_LEVEL =
      (g.lines_cleared + count) / 10 := by
    rw [LINES_PER_LEVEL, Int.tdiv_eq_ediv (by omega) (by omega)]
  simp only [lock_and_clear, ← hc, if_pos (by omega : count > 0)]
  obtain ⟨hsc, hlv, hln⟩ := spawn_preserves_counters
    { g with
      board := (board_clear_lines (board_lock_piece g.board g.current_piece
        g.current_rotation g.piece_x g.piece_y)).1
      lines_cleared := g.lines_cleared + count
      score := g.score + LINE_CLEAR_SCORES.getD count.toNat 0 * g.level
      level := 1 + (g.lines_cleared + count).tdiv LINES_PER_LEVEL } fresh
  rw [hsc, hlv, hln]
  exact ⟨rfl, by rw [hscores], by rw [hdiv]⟩

/-- Witness for lock_and_clear_correct: the concrete game whose O piece at
(3, 18) completes the bottom row; one line clears at level 3. -/
theorem lock_and_clear_correct_witness :
    (lock_and_clear c3_game PIECE_S).lines_cleared = c3_game.lines_cleared + 1 ∧
    (lock_and_clear c3_game PIECE_S).score = c3_game.score +
      (if (1 : ℤ) = 1 then 100 else if (1 : ℤ) = 2 then 300
       else if (1 : ℤ) = 3 then 500 else 800) * c3_game.level ∧
    (lock_and_clear c3_game PIECE_S).level = 1 + (c3_game.lines_cleared + 1) / 10 :=
  lock_and_clear_correct c3_game PIECE_S 1 (by decide) (by decide) (by decide)
    (by decide)

lemma rotateTry_found (g : Game) (nr : RotationState) :
    ∀ (offs : List (ℤ × ℤ)) (o : ℤ × ℤ),
    offs.find? (fun c => !board_check_collision g.board g.current_piece nr
      (g.piece_x + c.1) (g.piece_y + c.2)) = some o →
    (rotateTry g nr offs).2 = true ∧
    (rotateTry g nr offs).1.current_rotation = nr ∧
    (rotateTry g nr offs).1.piece_x = g.piece_x + o.1 ∧
    (rotateTry g nr offs).1.piece_y = g.piece_y + o.2 := by
  intro offs
  induction offs with
  | nil =>
    intro o h
    simp at h
  | cons o' rest ih =>
    intro o hfind
    cases hcol : board_check_collision g.board g.current_piece nr
        (g.piece_x + o'.1) (g.piece_y + o'.2) with
    | false =>
      have ho : o' = o := by
        rw [List.find?_cons_of_pos _ (by simp [hcol])] at hfind
        exact Option.some_inj.mp hfind
      subst ho
      simp only [rotateTry, hcol]
      rw [if_pos (by simp)]
      split_ifs <;> exact ⟨rfl, rfl, rfl, rfl⟩
    | true =>
      rw [List.find?_cons_of_neg _ (by simp [hcol])] at hfind
      have hr := ih o hfind
      simpa only [rotateTry, hcol, Bool.true_eq_false, not_true_eq_false,
        not_false_eq_true, if_neg, ite_false, reduceCtorEq] using hr

lemma rotateTry_none (g : Game) (nr : RotationState) :
    ∀ offs : List (ℤ × ℤ),
    offs.find? (fun c => !board_check_collision g.board g.current_piece nr
      (g.piece_x + c.1) (g.piece_y + c.2)) = none →
    rotateTry g nr offs = (g, false) := by
  intro offs
  induction offs with
  | nil =>
    intro _
    rfl
  | cons o' rest ih =>
    intro hfind
    rw [List.find?_eq_none] at hfind
    have hcol : board_check_collision g.board g.current_piece nr
        (g.piece_x + o'.1) (g.piece_y + o'.2) = true := by
      have := hfind o' (List.mem_cons_self o' rest)
      simpa using this
    have hrest : rest.find? (fun c => !board_check_collision g.board g.current_piece nr
        (g.piece_x + c.1) (g.piece_y + c.2)) = none := by
      rw [List.find?_eq_none]
      intro c hc
      exact hfind c (List.mem_cons_of_mem o' hc)
    have hr := ih hrest
    simpa only [rotateTry, hcol, Bool.true_eq_false, not_true_eq_false,
      not_false_eq_true, if_neg, ite_false, reduceCtorEq] using hr

/-- C5: in the Playing state, game_rotate computes the clockwise-successor
rotation and tests the offsets (0,0), (-1,0), (1,0), (0,-1), (-2,0), (2,0)
in exactly that order against collision at the new rotation; the first
non-colliding candidate is committed (rotation, x, y together) with success,
and if every candidate collides the call fails with rotation and position
unchanged. -/
theorem game_rotate_correct (g : Game) (hp : g.state = GAME_STATE_PLAYING) :
    (∀ o : ℤ × ℤ,
      (([(0, 0), (-1, 0), (1, 0), (0, -1), (-2, 0), (2, 0)] : List (ℤ × ℤ)).find?
        (fun c => !board_check_collision g.board g.current_piece
          (piece_rotate_cw g.current_rotation)
          (g.piece_x + c.1) (g.piece_y + c.2)) = some o) →
      (game_rotate g).2 = true ∧
      (game_rotate g).1.current_rotation = piece_rotate_cw g.current_rotation ∧
      (game_rotate g).1.piece_x = g.piece_x + o.1 ∧
      (game_rotate g).1.piece_y = g.piece_y + o.2)
    ∧ ((([(0, 0), (-1, 0), (1, 0), (0, -1), (-2, 0), (2, 0)] : List (ℤ × ℤ)).find?
        (fun c => !board_check_collision g.board g.current_piece
          (piece_rotate_cw g.current_rotation)
          (g.piece_x + c.1) (g.piece_y + c.2)) = none) →
      game_rotate g = (g, false)) := by
  have hunfold : game_rotate g
      = rotateTry g (piece_rotate_cw g.current_rotation) WALL_KICK_OFFSETS := by
    rw [game_rotate, if_neg (by simp [hp])]
  constructor
  · intro o hfind
    rw [hunfold]
    exact rotateTry_found g (piece_rotate_cw g.current_rotation)
      WALL_KICK_OFFSETS o hfind
  · intro hfind
    rw [hunfold]
    exact rotateTry_none g (piece_rotate_cw g.current_rotation)
      WALL_KICK_OFFSETS hfind

/-- Witness for game_rotate_correct: on the empty board the first offset
(0, 0) is accepted, so rotating the T piece at (3, 5) succeeds in place. -/
theorem game_rotate_correct_witness :
    (game_rotate c5_game).2 = true ∧
    (game_rotate c5_game).1.current_rotation = piece_rotate_cw c5_game.current_rotation ∧
    (game_rotate c5_game).1.piece_x = c5_game.piece_x + (0 : ℤ) ∧
    (game_rotate c5_game).1.piece_y = c5_game.piece_y + (0 : ℤ) :=
  (game_rotate_correct c5_game (by decide)).1 ((0 : ℤ), (0 : ℤ)) (by decide)

/-- C8: while the state is Paused, every update call, with any delta and any
number of repetitions, leaves the entire game state (board, score, level,
lines, piece, both timers) unchanged, and game_toggle_pause returns to
Playing with every other field — the timers included — exactly as paused. -/
theorem game_pause_correct (g : Game) (hp : g.state = GAME_STATE_PAUSED) :
    (∀ (delta_time : ℚ) (fresh : PieceType), game_update g delta_time fresh = g)
    ∧ (∀ (n : ℕ) (delta_time : ℚ) (fresh : PieceType),
        (fun h => game_update h delta_time fresh)^[n] g = g)
    ∧ game_toggle_pause g = { g with state := GAME_STATE_PLAYING } := by
  have hupd : ∀ (delta_time : ℚ) (fresh : PieceType),
      game_update g delta_time fresh = g := by
    intro d f
    rw [game_update, if_pos (by simp [hp])]
  refine ⟨hupd, ?_, ?_⟩
  · intro n d f
    induction n with
    | zero => rfl
    | succ k ih =>
      rw [Function.iterate_succ_apply', ih]
      exact hupd d f
  · rw [game_toggle_pause, if_neg (by simp [hp]), if_pos hp]

/-- Witness for game_pause_correct: a concrete paused game with nonzero
timers is untouched by update and resumes with its timers intact. -/
theorem game_pause_correct_witness :
    game_update c8_game (3 : ℚ) PIECE_I = c8_game ∧
    game_toggle_pause c8_game = { c8_game with state := GAME_STATE_PLAYING } :=
  ⟨(game_pause_correct c8_game rfl).1 3 PIECE_I,
   (game_pause_correct c8_game rfl).2.2⟩

lemma shape_dy_nonneg (type : PieceType) (rotation : RotationState) :
    ∀ c ∈ piece_get_shape type rotation, 0 ≤ c.2 := by
  cases type <;> cases rotation <;> decide

lemma shape_ne_nil (type : PieceType) (rotation : RotationState) :
    piece_get_shape type rotation ≠ [] := by
  cases type <;> cases rotation <;> decide

lemma collide_of_below (b : Board) (type : PieceType) (rotation : RotationState)
    (x y : ℤ) (hy : 20 ≤ y) : board_check_collision b type rotation x y = true := by
  rw [board_check_collision_iff_violates]
  obtain ⟨c, hc⟩ := List.exists_mem_of_ne_nil _ (shape_ne_nil type rotation)
  have hc2 := shape_dy_nonneg type rotation c hc
  exact ⟨c, hc, Or.inr (Or.inr (Or.inl (by simp only [BOARD_HEIGHT]; omega)))⟩

lemma dropLoop_succ_nocol (b : Board) (type : PieceType) (rotation : RotationState)
    (x y : ℤ) (n : ℕ)
    (hcol : board_check_collision b type rotation x (y + 1) = false) :
    dropLoop b type rotation x (n + 1) y =
      ((dropLoop b type rotation x n (y + 1)).1,
       (dropLoop b type rotation x n (y + 1)).2 + 1) := by
  simp [dropLoop, hcol]

lemma dropLoop_succ_col (b : Board) (type : PieceType) (rotation : RotationState)
    (x y : ℤ) (n : ℕ)
    (hcol : board_check_collision b type rotation x (y + 1) = true) :
    dropLoop b type rotation x (n + 1) y = (y, 0) := by
  simp [dropLoop, hcol]

lemma dropLoop_spec : ∀ (fuel : ℕ) (b : Board) (type : PieceType)
    (rotation : RotationState) (x y : ℤ), (20 - y).toNat < fuel →
    board_check_collision b type rotation x
      ((dropLoop b type rotation x fuel y).1 + 1) = true ∧
    (dropLoop b type rotation x fuel y).1
      = y + ((dropLoop b type rotation x fuel y).2 : ℤ) ∧
    ∀ fuel₂ : ℕ, (20 - y).toNat < fuel₂ →
      dropLoop b type rotation x fuel₂ y = dropLoop b type rotation x fuel y := by
  intro fuel
  induction fuel with
  | zero =>
    intro b type rotation x y h
    omega
  | succ n ih =>
    intro b type rotation x y h
    cases hcol : board_check_collision b type rotation x (y + 1) with
    | true =>
      rw [dropLoop_succ_col _ _ _ _ _ _ hcol]
      refine ⟨by simpa using hcol, by simp, ?_⟩
      intro fuel₂ h₂
      cases fuel₂ with
      | zero => omega
      | succ m => rw [dropLoop_succ_col _ _ _ _ _ _ hcol]
    | false =>
      have hy : y + 1 < 20 := by
        by_contra hge
        have hc := collide_of_below b type rotation x (y + 1) (by omega)
        rw [hc] at hcol
        cases hcol
      have hn : (20 - (y + 1)).toNat < n := by omega
      obtain ⟨ih1, ih2, ih3⟩ := ih b type rotation x (y + 1) hn
      rw [dropLoop_succ_nocol _ _ _ _ _ _ hcol]
      refine ⟨by simpa using ih1, by push_cast; omega, ?_⟩
      intro fuel₂ h₂
      cases fuel₂ with
      | zero => omega
      | succ m =>
        rw [dropLoop_succ_nocol _ _ _ _ _ _ hcol, ih3 m (by omega)]

/-- C10: the hard-drop descent loop always terminates: from any integer
height y it stops within dropFuel y = (BOARD_HEIGHT - y).toNat + 1 steps at a
position whose next row collides (any placement at or below row 20 collides
because every shape offset has dy ≥ 0), having increased piece_y by exactly
the returned distance; giving the loop any more fuel does not change the
result, so the bound is never the limiting factor. -/
theorem hard_drop_terminates (b : Board) (type : PieceType)
    (rotation : RotationState) (x y : ℤ) (extra : ℕ) :
    board_check_collision b type rotation x
      ((dropLoop b type rotation x (dropFuel y) y).1 + 1) = true ∧
    (dropLoop b type rotation x (dropFuel y) y).1
      = y + ((dropLoop b type rotation x (dropFuel y) y).2 : ℤ) ∧
    dropLoop b type rotation x (dropFuel y + extra) y
      = dropLoop b type rotation x (dropFuel y) y := by
  have h : (20 - y).toNat < dropFuel y := by
    rw [dropFuel]
    simp only [BOARD_HEIGHT]
    omega
  obtain ⟨h1, h2, h3⟩ := dropLoop_spec (dropFuel y) b type rotation x y h
  exact ⟨h1, h2, h3 _ (by omega)⟩

lemma spawn_fst_level (g : Game) (fresh : PieceType) :
    (game_spawn_piece g fresh).1.level = g.level :=
  (spawn_preserves_counters g fresh).2.1

lemma spawn_fst_lines (g : Game) (fresh : PieceType) :
    (game_spawn_piece g fresh).1.lines_cleared = g.lines_cleared :=
  (spawn_preserves_counters g fresh).2.2

lemma lock_and_clear_level_full (g : Game) (fresh : PieceType) (h : LevelInv g) :
    LevelInv (lock_and_clear g fresh) ∧ g.level ≤ (lock_and_clear g fresh).level ∧
      1 ≤ (lock_and_clear g fresh).level := by
  obtain ⟨h0, hl⟩ := h
  simp only [lock_and_clear]
  set L : ℤ := ((board_clear_lines (board_lock_piece g.board g.current_piece
    g.current_rotation g.piece_x g.piece_y)).2 : ℤ) with hLdef
  have hcast : (0 : ℤ) ≤ L := by
    rw [hLdef]
    exact Int.ofNat_nonneg _
  split_ifs with hpos
  · have htd : (g.lines_cleared + L).tdiv LINES_PER_LEVEL
        = (g.lines_cleared + L) / 10 := by
      rw [LINES_PER_LEVEL, Int.tdiv_eq_ediv (by omega) (by omega)]
    refine ⟨⟨?_, ?_⟩, ?_, ?_⟩
    · rw [spawn_fst_lines]
      show (0 : ℤ) ≤ g.lines_cleared + L
      omega
    · rw [spawn_fst_level, spawn_fst_lines]
      show 1 + (g.lines_cleared + L).tdiv LINES_PER_LEVEL
        = 1 + (g.lines_cleared + L) / 10
      rw [htd]
    · rw [spawn_fst_level]
      show g.level ≤ 1 + (g.lines_cleared + L).tdiv LINES_PER_LEVEL
      rw [htd]
      omega
    · rw [spawn_fst_level]
      show (1 : ℤ) ≤ 1 + (g.lines_cleared + L).tdiv LINES_PER_LEVEL
      rw [htd]
      omega
  · refine ⟨⟨?_, ?_⟩, ?_, ?_⟩
    · rw [spawn_fst_lines]
      exact h0
    · rw [spawn_fst_level, spawn_fst_lines]
      exact hl
    · rw [spawn_fst_level]
    · rw [spawn_fst_level]
      show (1 : ℤ) ≤ g.level
      omega

lemma lock_and_clear_level_lb (g : Game) (fresh : PieceType) (h : LevelLB g) :
    LevelLB (lock_and_clear g fresh) := by
  obtain ⟨h0, h1⟩ := h
  simp only [lock_and_clear]
  set L : ℤ := ((board_clear_lines (board_lock_piece g.board g.current_piece
    g.current_rotation g.piece_x g.piece_y)).2 : ℤ) with hLdef
  have hcast : (0 : ℤ) ≤ L := by
    rw [hLdef]
    exact Int.ofNat_nonneg _
  split_ifs with hpos
  · have htd : (g.lines_cleared + L).tdiv LINES_PER_LEVEL
        = (g.lines_cleared + L) / 10 := by
      rw [LINES_PER_LEVEL, Int.tdiv_eq_ediv (by omega) (by omega)]
    refine ⟨?_, ?_⟩
    · rw [spawn_fst_lines]
      show (0 : ℤ) ≤ g.lines_cleared + L
      omega
    · rw [spawn_fst_level]
      show (1 : ℤ) ≤ 1 + (g.lines_cleared + L).tdiv LINES_PER_LEVEL
      rw [htd]
      omega
  · refine ⟨?_, ?_⟩
    · rw [spawn_fst_lines]
      exact h0
    · rw [spawn_fst_level]
      exact h1

lemma rotateTry_counters (g : Game) (nr : RotationState) :
    ∀ offs : List (ℤ × ℤ), (rotateTry g nr offs).1.level = g.level ∧
      (rotateTry g nr offs).1.lines_cleared = g.lines_cleared := by
  intro offs
  induction offs with
  | nil => exact ⟨rfl, rfl⟩
  | cons o rest ih =>
    simp only [rotateTry]
    split_ifs <;> first | exact ⟨rfl, rfl⟩ | exact ih

/-- C4 counterexample: starting a fresh game at level 2 and dropping five O
pieces (a legal in-game action sequence) clears two lines at once, after
which the recomputation level = 1 + floor(2 / 10) DROPS the level from 2 to
1; the level is therefore not monotonically non-decreasing from
set_starting_level onward as claimed. -/
theorem level_monotone_counterexample :
    c4_g1.state = GAME_STATE_PLAYING ∧ c4_g1.level = 2 ∧
    c4_final.lines_cleared = 2 ∧ c4_final.level = 1 ∧
    c4_final.level < c4_g1.level := by decide

/-- C4 amended: from game_set_starting_level onward the level always stays
at least 1, for every starting level 1..10 (and any clamped argument),
across every action and update; when the game is started at level 1 the
level moreover always equals 1 + floor(total_lines_cleared / 10) and is
monotonically non-decreasing. (With a starting level above 1 the first
clear can lower the level, and nothing caps it at 10.) -/
theorem level_progression :
    (∀ (g : Game) (lv : ℤ), 0 ≤ g.lines_cleared →
        LevelLB (game_set_starting_level g lv))
    ∧ (∀ (g : Game) (a : GameAction), LevelLB g → LevelLB (game_step g a))
    ∧ (∀ g : Game, g.lines_cleared = 0 → LevelInv (game_set_starting_level g 1))
    ∧ ∀ (g : Game) (a : GameAction), LevelInv g →
        LevelInv (game_step g a) ∧ g.level ≤ (game_step g a).level ∧
          1 ≤ (game_step g a).level := by
  refine ⟨?_, ?_, ?_, ?_⟩
  · intro g lv h0
    simp only [game_set_starting_level]
    split_ifs with h1 h2
    all_goals refine ⟨h0, ?_⟩
    all_goals first
      | exact (by omega : (1 : ℤ) ≤ 1)
      | exact (by omega : (1 : ℤ) ≤ 10)
      | exact (by omega : (1 : ℤ) ≤ lv)
  · intro g a h
    obtain ⟨h0, h1⟩ := h
    cases a with
    | moveLeft =>
      simp only [game_step, game_move_left]
      split_ifs <;> exact ⟨h0, h1⟩
    | moveRight =>
      simp only [game_step, game_move_right]
      split_ifs <;> exact ⟨h0, h1⟩
    | moveDown =>
      simp only [game_step, game_move_down]
      split_ifs <;> exact ⟨h0, h1⟩
    | rotate =>
      simp only [game_step, game_rotate]
      split_ifs
      · exact ⟨h0, h1⟩
      · obtain ⟨hlv, hln⟩ := rotateTry_counters g
          (piece_rotate_cw g.current_rotation) WALL_KICK_OFFSETS
        refine ⟨?_, ?_⟩
        · rw [hln]
          exact h0
        · rw [hlv]
          exact h1
    | togglePause =>
      simp only [game_step, game_toggle_pause]
      split_ifs <;> exact ⟨h0, h1⟩
    | hardDrop fresh =>
      simp only [game_step, game_hard_drop]
      split_ifs
      · exact ⟨h0, h1⟩
      · exact lock_and_clear_level_lb _ fresh ⟨h0, h1⟩
    | update delta_time fresh =>
      simp only [game_step, game_update]
      split_ifs <;>
        first
          | exact ⟨h0, h1⟩
          | exact lock_and_clear_level_lb _ fresh ⟨h0, h1⟩
  · intro g hz
    simp only [game_set_starting_level]
    split_ifs
    all_goals first
      | exact ⟨by show (0 : ℤ) ≤ g.lines_cleared; omega,
          by show (1 : ℤ) = 1 + g.lines_cleared / 10; omega⟩
      | (exfalso; omega)
  · intro g a h
    obtain ⟨h0, hl⟩ := h
    cases a with
    | moveLeft =>
      simp only [game_step, game_move_left]
      split_ifs <;>
        exact ⟨⟨h0, hl⟩, le_refl _, show (1 : ℤ) ≤ g.level by omega⟩
    | moveRight =>
      simp only [game_step, game_move_right]
      split_ifs <;>
        exact ⟨⟨h0, hl⟩, le_refl _, show (1 : ℤ) ≤ g.level by omega⟩
    | moveDown =>
      simp only [game_step, game_move_down]
      split_ifs <;>
        exact ⟨⟨h0, hl⟩, le_refl _, show (1 : ℤ) ≤ g.level by omega⟩
    | rotate =>
      simp only [game_step, game_rotate]
      split_ifs
      · exact ⟨⟨h0, hl⟩, le_refl _, show (1 : ℤ) ≤ g.level by omega⟩
      · obtain ⟨hlv, hln⟩ := rotateTry_counters g
          (piece_rotate_cw g.current_rotation) WALL_KICK_OFFSETS
        refine ⟨⟨?_, ?_⟩, ?_, ?_⟩
        · rw [hln]
          exact h0
        · rw [hlv, hln]
          exact hl
        · rw [hlv]
        · rw [hlv]
          show (1 : ℤ) ≤ g.level
          omega
    | togglePause =>
      simp only [game_step, game_toggle_pause]
      split_ifs <;>
        exact ⟨⟨h0, hl⟩, le_refl _, show (1 : ℤ) ≤ g.level by omega⟩
    | hardDrop fresh =>
      simp only [game_step, game_hard_drop]
      split_ifs
      · exact ⟨⟨h0, hl⟩, le_refl _, show (1 : ℤ) ≤ g.level by omega⟩
      · exact lock_and_clear_level_full _ fresh ⟨h0, hl⟩
    | update delta_time fresh =>
      simp only [game_step, game_update]
      split_ifs <;>
        first
          | exact ⟨⟨h0, hl⟩, le_refl _, show (1 : ℤ) ≤ g.level by omega⟩
          | exact lock_and_clear_level_full _ fresh ⟨h0, hl⟩

/-- Witness for level_progression: starting the fresh game at level 2 keeps
the level at least 1 across a concrete action, and starting it at level 1
establishes the exact-formula invariant that one concrete action preserves
together with the level bounds. -/
theorem level_progression_witness :
    LevelLB (game_set_starting_level c4_g0 2) ∧
    LevelLB (game_step (game_set_starting_level c4_g0 2) GameAction.moveLeft) ∧
    LevelInv (game_set_starting_level c4_g0 1) ∧
    (LevelInv (game_step (game_set_starting_level c4_g0 1) GameAction.moveLeft) ∧
      (game_set_starting_level c4_g0 1).level ≤
        (game_step (game_set_starting_level c4_g0 1) GameAction.moveLeft).level ∧
      1 ≤ (game_step (game_set_starting_level c4_g0 1) GameAction.moveLeft).level) :=
  ⟨level_progression.1 c4_g0 2 (by decide),
   level_progression.2.1 (game_set_starting_level c4_g0 2) GameAction.moveLeft
     ⟨by decide, by decide⟩,
   level_progression.2.2.1 c4_g0 (by decide),
   level_progression.2.2.2 (game_set_starting_level c4_g0 1) GameAction.moveLeft
     ⟨by decide, by decide⟩⟩
